import Mathlib

/-!
# Verification of greenleeks (src/greenleeks.go)

A shallow embedding of the greenleeks tool: a single-file Go program that
checks whether a directory is under git control and, if not, initializes a
repository, counts files against a `--max-files` ceiling, stages everything
and makes one commit with an author identity resolved from a gitconfig file.

External collaborators (go-git, the ini reader, `filepath.Walk`,
tilde expansion) are modelled as oracles/environments; the control flow of
the Go functions `Execute`, `run`, `isUnderGitControl`, `countFiles`,
`configureGitUserInfo` is translated directly.
-/

namespace Greenleeks

/-! ## Filesystem model and the `countFiles` walk

`filepath.Walk` visits a rooted tree in depth-first order.  An entry is a
file or a directory; the `ioErr` flag on a node means the walk reports an
I/O error when visiting that node (lstat failure on any node, or a
read-dir failure on a directory — in both cases the callback receives a
non-nil error before any child of a directory is visited, and since the
callback in `countFiles` propagates the error, the walk aborts there). -/

inductive Entry where
  | file (ioErr : Bool)
  | dir (ioErr : Bool) (children : List Entry)

/-- Errors produced by the walk callback in `countFiles`:
either a propagated I/O error from `filepath.Walk`, or the
`maxFilesErrorMessage` error `"too many files (%d), limit is %d"`
carrying the count at the point of failure and the limit. -/
inductive WalkErr where
  | ioError
  | tooMany (count limit : Int)
deriving Repr, DecidableEq

mutual
/-- One step of `filepath.Walk` with the callback of `countFiles`
(src/greenleeks.go lines 183–194), threading the closed-over `fileCount`
(`n`).  Go `int` is modelled as `Int` (the `--max-files` flag may be
negative).  Returns the final counter together with the error, if any. -/
def walkEntry (maxFiles : Int) : Entry → Int → Int × Option WalkErr
  | Entry.file e, n =>
      if e then (n, some WalkErr.ioError)
      else
        let n' := n + 1
        if n' > maxFiles then (n', some (WalkErr.tooMany n' maxFiles))
        else (n', none)
  | Entry.dir e cs, n =>
      if e then (n, some WalkErr.ioError)
      else walkEntries maxFiles cs n

/-- Walk a list of sibling entries in order, aborting on the first error. -/
def walkEntries (maxFiles : Int) : List Entry → Int → Int × Option WalkErr
  | [], n => (n, none)
  | c :: cs, n =>
      match walkEntry maxFiles c n with
      | (n', none) => walkEntries maxFiles cs n'
      | (n', some e) => (n', some e)
end

/-- `countFiles` (src/greenleeks.go lines 181–196): walk the root with the
counter starting at 0; return the counter and the walk error, if any. -/
def countFiles (maxFiles : Int) (root : Entry) : Int × Option WalkErr :=
  walkEntry maxFiles root 0

mutual
/-- Total number of non-directory entries in a tree. -/
def totalFiles : Entry → Int
  | Entry.file _ => 1
  | Entry.dir _ cs => totalFilesList cs

def totalFilesList : List Entry → Int
  | [] => 0
  | c :: cs => totalFiles c + totalFilesList cs
end

mutual
/-- No node of the tree makes the walk report an I/O error. -/
def noIOErr : Entry → Bool
  | Entry.file e => !e
  | Entry.dir e cs => !e && noIOErrList cs

def noIOErrList : List Entry → Bool
  | [] => true
  | c :: cs => noIOErr c && noIOErrList cs
end

/-! ## Config model and `configureGitUserInfo` -/

/-- `AuthorInfo` (src/greenleeks.go lines 23–26). -/
structure AuthorInfo where
  name : String
  email : String
deriving Repr, DecidableEq

/-- Model of the go-ini file object: a list of sections, each a list of
key/value pairs.  `sectionKey f s k` models
`f.Section(s).Key(k).String()`: go-ini returns an empty string when the
section or the key is missing. -/
structure IniFile where
  sections : List (String × List (String × String))
deriving Repr, DecidableEq

def IniFile.sectionKey (f : IniFile) (sec k : String) : String :=
  match f.sections.find? (fun p => p.1 == sec) with
  | none => ""
  | some (_, kvs) =>
    match kvs.find? (fun p => p.1 == k) with
    | none => ""
    | some (_, v) => v

/-- Outcome of `configureGitUserInfo`: the Go function either panics
(tilde expansion failed) or returns an `AuthorInfo` together with an
error flag (`isErr = true` models a non-nil returned error). -/
inductive CfgResult where
  | panicked
  | returned (ai : AuthorInfo) (isErr : Bool)
deriving Repr, DecidableEq

/-- `configureGitUserInfo` (src/greenleeks.go lines 198–226).
`expandTildeResult` models `mymazda.ExpandTilde(opts.GitConfig)` (`none` =
expansion error, which the Go code turns into `panic`); `fs` models
`ini.Load` on a path (`none` = read error, in which case the Go code
returns the zero `AuthorInfo{}` and the error). -/
def configureGitUserInfo (expandTildeResult : Option String)
    (fs : String → Option IniFile) : CfgResult :=
  match expandTildeResult with
  | none => CfgResult.panicked
  | some gitConfigPath =>
    match fs gitConfigPath with
    | none => CfgResult.returned ⟨"", ""⟩ true
    | some config =>
      let ai : AuthorInfo := ⟨"Your Name", "your.email@example.com"⟩
      let nameVal := config.sectionKey "user" "name"
      let emailVal := config.sectionKey "user" "email"
      let ai := if nameVal ≠ "" then { ai with name := nameVal } else ai
      let ai := if emailVal ≠ "" then { ai with email := emailVal } else ai
      CfgResult.returned ai false

/-! ## Git environment model and the orchestrator `run` / `Execute`

go-git is the spec's black-box capability {Open, Init, Worktree, Add,
Commit}; its outcomes are supplied by an environment record.  The
observable mutations (init, stage-all, commit) are recorded as effects. -/

/-- Result of `git.PlainOpenWithOptions` with `DetectDotGit: true`:
success (`none`) or one of the error values the code distinguishes
(`git.ErrRepositoryNotExists`, `git.ErrWorktreeNotProvided`, anything
else). -/
inductive OpenErr where
  | repositoryNotExists
  | worktreeNotProvided
  | other (msg : String)
deriving Repr, DecidableEq

/-- `isUnderGitControl` (src/greenleeks.go lines 116–125), as a function
of the library's open outcome. -/
def isUnderGitControl (openResult : Option OpenErr) : Bool × Option OpenErr :=
  match openResult with
  | none => (true, none)
  | some OpenErr.repositoryNotExists => (false, none)
  | some OpenErr.worktreeNotProvided => (false, none)
  | some e => (false, some e)

/-- A recorded commit: the fixed message and the author signature stamped
from the package-level `authorInfo`. -/
structure Commit where
  message : String
  author : AuthorInfo
deriving Repr, DecidableEq

/-- Observable repository mutations performed by a run. -/
structure Effects where
  inited : Bool
  staged : Bool
  commits : List Commit
deriving Repr, DecidableEq

def noEffects : Effects := ⟨false, false, []⟩

/-- The environment a run executes against: the tilde-expansion and
config-read oracles consumed by `configureGitUserInfo`, the go-git
outcomes, the directory tree under `opts.RootDir`, and `opts.MaxFiles`. -/
structure Env where
  expandTildeResult : Option String
  fs : String → Option IniFile
  openResult : Option OpenErr
  initOk : Bool
  addOk : Bool
  commitOk : Bool
  tree : Entry
  maxFiles : Int

/-- The error `run` returns, tagged by the failing step (each Go branch
wraps the underlying error with a distinct `fmt.Errorf` context). -/
inductive RunError where
  | configFailed
  | checkFailed (e : OpenErr)
  | initFailed
  | countFailed (e : WalkErr)
  | tooManyFiles (count limit : Int)
  | addFailed
  | commitFailed
deriving Repr, DecidableEq

/-- Outcome of `run`: a panic escaping from `configureGitUserInfo`, or a
normal return carrying the error (if any) and the recorded effects. -/
inductive RunResult where
  | panicked
  | finished (err : Option RunError) (eff : Effects)
deriving Repr, DecidableEq

/-- `run` (src/greenleeks.go lines 67–114), threading the effects of
`initializeGitRepository` (lines 127–133), `addAllFiles` (lines 135–152)
and `commit` (lines 154–179).  `addAllFiles` stages all paths (`"."`);
`commit` creates one commit with message `"Boilerplate"` and the author
resolved by the config loader. -/
def run (env : Env) : RunResult :=
  match configureGitUserInfo env.expandTildeResult env.fs with
  | CfgResult.panicked => RunResult.panicked
  | CfgResult.returned _ true =>
      RunResult.finished (some RunError.configFailed) noEffects
  | CfgResult.returned authorInfo false =>
    match isUnderGitControl env.openResult with
    | (_, some e) => RunResult.finished (some (RunError.checkFailed e)) noEffects
    | (true, none) => RunResult.finished none noEffects
    | (false, none) =>
      if env.initOk = false then
        RunResult.finished (some RunError.initFailed) noEffects
      else
        match countFiles env.maxFiles env.tree with
        | (_, some e) =>
            RunResult.finished (some (RunError.countFailed e)) ⟨true, false, []⟩
        | (fileCount, none) =>
          if fileCount > env.maxFiles then
            RunResult.finished (some (RunError.tooManyFiles fileCount env.maxFiles))
              ⟨true, false, []⟩
          else if env.addOk = false then
            RunResult.finished (some RunError.addFailed) ⟨true, false, []⟩
          else if env.commitOk = false then
            RunResult.finished (some RunError.commitFailed) ⟨true, true, []⟩
          else
            RunResult.finished none ⟨true, true, [⟨"Boilerplate", authorInfo⟩]⟩

/-- The count and limit a `run` error message reports
(`maxFilesErrorMessage = "too many files (%d), limit is %d"`,
src/greenleeks.go line 18, formatted at lines 98 and 190). -/
def reportedCountLimit : RunError → Option (Int × Int)
  | RunError.countFailed (WalkErr.tooMany c l) => some (c, l)
  | RunError.tooManyFiles c l => some (c, l)
  | _ => none

/-- World transition after a run.  Modelled from the spec: the
version-control engine is a black box whose `Init` creates the on-disk
repository, so once a run has initialized the target directory a
subsequent `Open` (repository state check) succeeds. -/
def applyRun (env : Env) (eff : Effects) : Env :=
  if eff.inited then { env with openResult := none } else env

/-- `Execute` (src/greenleeks.go lines 39–58).  The three setup oracles
model `parseFlags`, `setLogLevel` and `setupLogger` failing.  Returns
`none` when the run panics (the Go process aborts without `Execute`
returning); otherwise `some (exit code, whether a run error was logged
via slog.Error)`. -/
def Execute (flagsErr logLevelErr loggerErr : Bool) (env : Env) :
    Option (Int × Bool) :=
  if flagsErr then some (1, false)
  else if logLevelErr then some (1, false)
  else if loggerErr then some (1, false)
  else
    match run env with
    | RunResult.panicked => none
    | RunResult.finished (some _) _ => some (1, true)
    | RunResult.finished none _ => some (0, false)

/-! ## Walk lemmas -/

mutual
theorem totalFiles_nonneg : ∀ t : Entry, 0 ≤ totalFiles t
  | Entry.file _ => by simp [totalFiles]
  | Entry.dir _ cs => by simpa [totalFiles] using totalFilesList_nonneg cs

theorem totalFilesList_nonneg : ∀ ts : List Entry, 0 ≤ totalFilesList ts
  | [] => by simp [totalFilesList]
  | c :: cs => by
      have h1 := totalFiles_nonneg c
      have h2 := totalFilesList_nonneg cs
      simp only [totalFilesList]
      omega
end

mutual
/-- A subtree with no I/O errors and no files is walked without touching
the counter and without error, whatever the threshold. -/
theorem walkEntry_zero : ∀ (mf : Int) (t : Entry) (n : Int),
    noIOErr t = true → totalFiles t = 0 →
    walkEntry mf t n = (n, none)
  | _, Entry.file _, _ => by
      intro _ h2
      simp [totalFiles] at h2
  | mf, Entry.dir e cs, n => by
      intro h1 h2
      simp only [noIOErr, Bool.and_eq_true, Bool.not_eq_true'] at h1
      simp only [totalFiles] at h2
      simp only [walkEntry, h1.1, Bool.false_eq_true, if_false]
      exact walkEntries_zero mf cs n h1.2 h2

theorem walkEntries_zero : ∀ (mf : Int) (ts : List Entry) (n : Int),
    noIOErrList ts = true → totalFilesList ts = 0 →
    walkEntries mf ts n = (n, none)
  | _, [], _ => by intro _ _; rfl
  | mf, c :: cs, n => by
      intro h1 h2
      simp only [noIOErrList, Bool.and_eq_true] at h1
      simp only [totalFilesList] at h2
      have hc0 : totalFiles c = 0 := by
        have := totalFiles_nonneg c
        have := totalFilesList_nonneg cs
        omega
      have hcs0 : totalFilesList cs = 0 := by
        have := totalFiles_nonneg c
        have := totalFilesList_nonneg cs
        omega
      simp only [walkEntries, walkEntry_zero mf c n h1.1 hc0]
      exact walkEntries_zero mf cs n h1.2 hcs0
end

mutual
/-- If the tree has no I/O errors and the counter would stay within the
threshold, the walk completes, counting every non-directory entry once. -/
theorem walkEntry_complete : ∀ (mf : Int) (t : Entry) (n : Int),
    noIOErr t = true → n + totalFiles t ≤ mf →
    walkEntry mf t n = (n + totalFiles t, none)
  | mf, Entry.file e, n => by
      intro h1 h2
      simp only [noIOErr, Bool.not_eq_true'] at h1
      simp only [totalFiles] at h2 ⊢
      simp only [walkEntry, h1, Bool.false_eq_true, if_false]
      rw [if_neg (by omega)]
  | mf, Entry.dir e cs, n => by
      intro h1 h2
      simp only [noIOErr, Bool.and_eq_true, Bool.not_eq_true'] at h1
      simp only [totalFiles] at h2 ⊢
      simp only [walkEntry, h1.1, Bool.false_eq_true, if_false]
      exact walkEntries_complete mf cs n h1.2 h2

theorem walkEntries_complete : ∀ (mf : Int) (ts : List Entry) (n : Int),
    noIOErrList ts = true → n + totalFilesList ts ≤ mf →
    walkEntries mf ts n = (n + totalFilesList ts, none)
  | _, [], n => by intro _ _; simp [walkEntries, totalFilesList]
  | mf, c :: cs, n => by
      intro h1 h2
      simp only [noIOErrList, Bool.and_eq_true] at h1
      simp only [totalFilesList] at h2 ⊢
      have hcs := totalFilesList_nonneg cs
      have hc : n + totalFiles c ≤ mf := by omega
      simp only [walkEntries, walkEntry_complete mf c n h1.1 hc]
      have := walkEntries_complete mf cs (n + totalFiles c) h1.2 (by omega)
      rw [this]
      ring_nf
end

mutual
/-- If the tree has no I/O errors, the counter starts within the threshold
and the files in the subtree would push it past the threshold, the walk
aborts at the first entry that exceeds it: the counter reads exactly
`mf + 1` and the `tooMany` error carries that counter and the limit. -/
theorem walkEntry_exceed : ∀ (mf : Int) (t : Entry) (n : Int),
    noIOErr t = true → n ≤ mf → mf < n + totalFiles t →
    walkEntry mf t n = (mf + 1, some (WalkErr.tooMany (mf + 1) mf))
  | mf, Entry.file e, n => by
      intro h1 h2 h3
      simp only [noIOErr, Bool.not_eq_true'] at h1
      simp only [totalFiles] at h3
      simp only [walkEntry, h1, Bool.false_eq_true, if_false]
      rw [if_pos (by omega)]
      have hn : n = mf := by omega
      rw [hn]
  | mf, Entry.dir e cs, n => by
      intro h1 h2 h3
      simp only [noIOErr, Bool.and_eq_true, Bool.not_eq_true'] at h1
      simp only [totalFiles] at h3
      simp only [walkEntry, h1.1, Bool.false_eq_true, if_false]
      exact walkEntries_exceed mf cs n h1.2 h2 h3

theorem walkEntries_exceed : ∀ (mf : Int) (ts : List Entry) (n : Int),
    noIOErrList ts = true → n ≤ mf → mf < n + totalFilesList ts →
    walkEntries mf ts n = (mf + 1, some (WalkErr.tooMany (mf + 1) mf))
  | _, [], n => by
      intro _ h2 h3
      simp only [totalFilesList] at h3
      omega
  | mf, c :: cs, n => by
      intro h1 h2 h3
      simp only [noIOErrList, Bool.and_eq_true] at h1
      simp only [totalFilesList] at h3
      by_cases hsplit : n + totalFiles c ≤ mf
      · simp only [walkEntries, walkEntry_complete mf c n h1.1 hsplit]
        exact walkEntries_exceed mf cs (n + totalFiles c) h1.2 hsplit (by omega)
      · simp only [walkEntries, walkEntry_exceed mf c n h1.1 h2 (by omega)]
end

mutual
/-- If the counter already reads at least the threshold and the error-free
subtree holds at least one file, the walk aborts at that first file with
the counter reading one more than it did on entry. -/
theorem walkEntry_over : ∀ (mf : Int) (t : Entry) (n : Int),
    noIOErr t = true → mf ≤ n → 1 ≤ totalFiles t →
    walkEntry mf t n = (n + 1, some (WalkErr.tooMany (n + 1) mf))
  | mf, Entry.file e, n => by
      intro h1 h2 _
      simp only [noIOErr, Bool.not_eq_true'] at h1
      simp only [walkEntry, h1, Bool.false_eq_true, if_false]
      rw [if_pos (by omega)]
  | mf, Entry.dir e cs, n => by
      intro h1 h2 h3
      simp only [noIOErr, Bool.and_eq_true, Bool.not_eq_true'] at h1
      simp only [totalFiles] at h3
      simp only [walkEntry, h1.1, Bool.false_eq_true, if_false]
      exact walkEntries_over mf cs n h1.2 h2 h3

theorem walkEntries_over : ∀ (mf : Int) (ts : List Entry) (n : Int),
    noIOErrList ts = true → mf ≤ n → 1 ≤ totalFilesList ts →
    walkEntries mf ts n = (n + 1, some (WalkErr.tooMany (n + 1) mf))
  | _, [], n => by
      intro _ _ h3
      simp only [totalFilesList] at h3
      omega
  | mf, c :: cs, n => by
      intro h1 h2 h3
      simp only [noIOErrList, Bool.and_eq_true] at h1
      simp only [totalFilesList] at h3
      by_cases hc0 : totalFiles c = 0
      · simp only [walkEntries, walkEntry_zero mf c n h1.1 hc0]
        exact walkEntries_over mf cs n h1.2 h2 (by omega)
      · have hc1 : 1 ≤ totalFiles c := by
          have := totalFiles_nonneg c
          omega
        simp only [walkEntries, walkEntry_over mf c n h1.1 h2 hc1]
end

mutual
/-- If the walk returns no error then the tree had no I/O errors, the
counter advanced by exactly the number of non-directory entries, and
either no entry was counted or the final counter is within the threshold. -/
theorem walkEntry_none : ∀ (mf : Int) (t : Entry) (n m : Int),
    walkEntry mf t n = (m, none) →
    noIOErr t = true ∧ m = n + totalFiles t ∧ (m = n ∨ m ≤ mf)
  | mf, Entry.file e, n, m => by
      intro h
      cases e with
      | true => simp [walkEntry] at h
      | false =>
        simp only [walkEntry, Bool.false_eq_true, if_false] at h
        by_cases hif : n + 1 > mf
        · rw [if_pos hif] at h
          simp at h
        · rw [if_neg hif] at h
          simp only [Prod.mk.injEq] at h
          refine ⟨rfl, ?_, ?_⟩
          · simp only [totalFiles]; omega
          · right; omega
  | mf, Entry.dir e cs, n, m => by
      intro h
      cases e with
      | true => simp [walkEntry] at h
      | false =>
        simp only [walkEntry, Bool.false_eq_true, if_false] at h
        obtain ⟨hno, hm, hd⟩ := walkEntries_none mf cs n m h
        exact ⟨by simp [noIOErr, hno], by simpa [totalFiles] using hm, hd⟩

theorem walkEntries_none : ∀ (mf : Int) (ts : List Entry) (n m : Int),
    walkEntries mf ts n = (m, none) →
    noIOErrList ts = true ∧ m = n + totalFilesList ts ∧ (m = n ∨ m ≤ mf)
  | _, [], n, m => by
      intro h
      simp only [walkEntries, Prod.mk.injEq] at h
      refine ⟨rfl, ?_, Or.inl (by omega)⟩
      simp only [totalFilesList]
      omega
  | mf, c :: cs, n, m => by
      intro h
      simp only [walkEntries] at h
      rcases hc : walkEntry mf c n with ⟨n1, o⟩
      rw [hc] at h
      cases o with
      | some e => simp at h
      | none =>
        simp only at h
        obtain ⟨hno1, hm1, hd1⟩ := walkEntry_none mf c n n1 hc
        obtain ⟨hno2, hm2, hd2⟩ := walkEntries_none mf cs n1 m h
        refine ⟨by simp [noIOErrList, hno1, hno2], ?_, ?_⟩
        · simp only [totalFilesList]; omega
        · rcases hd2 with h2 | h2
          · rcases hd1 with h1 | h1
            · left; omega
            · right; omega
          · right; exact h2
end

/-! ## Claims -/

/-- Claim C4: the repository state checker has exactly three outcomes:
it reports "under git control" exactly when the open succeeds; it reports
no error exactly when the open succeeds or fails with the
repository-does-not-exist or no-worktree errors; and whenever it reports
an error, that error is the open failure itself, propagated. -/
theorem claim_C4_isUnderGitControl (r : Option OpenErr) :
    ((isUnderGitControl r).1 = true ↔ r = none)
    ∧ ((isUnderGitControl r).2 = none ↔
        (r = none ∨ r = some OpenErr.repositoryNotExists
          ∨ r = some OpenErr.worktreeNotProvided))
    ∧ (∀ e, (isUnderGitControl r).2 = some e → r = some e) := by
  refine ⟨?_, ?_, ?_⟩ <;>
    · rcases r with _ | e
      · simp [isUnderGitControl]
      · cases e <;> simp [isUnderGitControl]

/-- Claim C8: `configureGitUserInfo` panics exactly when tilde expansion
of the config path fails; on every other input it returns normally. -/
theorem claim_C8_expand_panic (expandTildeResult : Option String)
    (fs : String → Option IniFile) :
    configureGitUserInfo expandTildeResult fs = CfgResult.panicked ↔
      expandTildeResult = none := by
  rcases expandTildeResult with _ | p
  · simp [configureGitUserInfo]
  · rcases h : fs p with _ | cfg <;> simp [configureGitUserInfo, h]

/-- Claim C9: when the configuration file cannot be read,
`configureGitUserInfo` returns the zero `AuthorInfo` (empty name and
email) together with the error — not the documented defaults. -/
theorem claim_C9_unreadable_config (p : String) (fs : String → Option IniFile)
    (h : fs p = none) :
    configureGitUserInfo (some p) fs =
      CfgResult.returned ⟨"", ""⟩ true := by
  simp [configureGitUserInfo, h]

/-- Witness for C9 at a concrete unreadable path. -/
theorem claim_C9_unreadable_config_witness :
    configureGitUserInfo (some "/home/user/.gitconfig") (fun _ => none) =
      CfgResult.returned ⟨"", ""⟩ true :=
  claim_C9_unreadable_config "/home/user/.gitconfig" (fun _ => none) rfl

/-- Claim C5: for a readable configuration file the resolved identity
takes `user.name` / `user.email` when present and non-empty and falls
back to the defaults independently for each value; in particular a file
with no `user` section resolves to exactly the default identity, and a
file with both values set resolves to exactly those values. -/
theorem claim_C5_identity_resolution (p : String) (fs : String → Option IniFile)
    (cfg : IniFile) (h : fs p = some cfg) :
    (configureGitUserInfo (some p) fs =
      CfgResult.returned
        ⟨if cfg.sectionKey "user" "name" ≠ "" then cfg.sectionKey "user" "name"
          else "Your Name",
         if cfg.sectionKey "user" "email" ≠ "" then cfg.sectionKey "user" "email"
          else "your.email@example.com"⟩ false)
    ∧ (cfg.sections.find? (fun q => q.1 == "user") = none →
        configureGitUserInfo (some p) fs =
          CfgResult.returned ⟨"Your Name", "your.email@example.com"⟩ false)
    ∧ (∀ nm em, nm ≠ "" → em ≠ "" →
        cfg.sectionKey "user" "name" = nm → cfg.sectionKey "user" "email" = em →
        configureGitUserInfo (some p) fs = CfgResult.returned ⟨nm, em⟩ false) := by
  refine ⟨?_, ?_, ?_⟩
  · simp only [configureGitUserInfo, h]
    by_cases hn : cfg.sectionKey "user" "name" = "" <;>
      by_cases he : cfg.sectionKey "user" "email" = "" <;>
        simp [hn, he]
  · intro hu
    have hn : ∀ k, cfg.sectionKey "user" k = "" := by
      intro k
      simp [IniFile.sectionKey, hu]
    simp [configureGitUserInfo, h, hn]
  · intro nm em hnm hem h1 h2
    simp [configureGitUserInfo, h, h1, h2, hnm, hem]

/-- Witness for C5: a config with both values set resolves to them. -/
theorem claim_C5_identity_resolution_witness :
    configureGitUserInfo (some "/home/user/.gitconfig")
        (fun _ => some ⟨[("user", [("name", "Alice"), ("email", "alice@example.org")])]⟩) =
      CfgResult.returned ⟨"Alice", "alice@example.org"⟩ false :=
  (claim_C5_identity_resolution "/home/user/.gitconfig"
      (fun _ => some ⟨[("user", [("name", "Alice"), ("email", "alice@example.org")])]⟩)
      ⟨[("user", [("name", "Alice"), ("email", "alice@example.org")])]⟩ rfl).2.2
    "Alice" "alice@example.org" (by decide) (by decide) rfl rfl

/-- Claim C10: for any threshold at most zero, `countFiles` on an
error-free tree containing at least one non-directory entry (including a
root that is itself a file) errors at the first such entry: it returns
count 1 and the too-many-files error carrying 1 and the threshold. -/
theorem claim_C10_nonpositive_threshold (mf : Int) (t : Entry)
    (h0 : mf ≤ 0) (h1 : noIOErr t = true) (h2 : 1 ≤ totalFiles t) :
    countFiles mf t = (1, some (WalkErr.tooMany 1 mf)) := by
  have h := walkEntry_over mf t 0 h1 h0 h2
  simpa [countFiles] using h

/-- Witness for C10: a negative threshold with the root path itself a
file errors at that single file. -/
theorem claim_C10_nonpositive_threshold_witness :
    countFiles (-3) (Entry.file false) = (1, some (WalkErr.tooMany 1 (-3))) :=
  claim_C10_nonpositive_threshold (-3) (Entry.file false) (by decide) rfl
    (by decide)

/-- Claim C2 (amended): `countFiles` counts each non-directory entry
once; it returns no error exactly when the tree has no I/O failures and
the counter never exceeds the threshold (every file counted within the
threshold, or no file at all); and when the error-free tree's files
exceed the threshold the walk aborts at the point of failure with count
`max 1 (threshold + 1)` — `threshold + 1` for non-negative thresholds —
which is not the total number of files in the tree. -/
theorem claim_C2_countFiles (mf : Int) (t : Entry) :
    ((countFiles mf t).2 = none ↔
      (noIOErr t = true ∧ (totalFiles t = 0 ∨ totalFiles t ≤ mf)))
    ∧ (noIOErr t = true → totalFiles t ≤ mf →
        countFiles mf t = (totalFiles t, none))
    ∧ (noIOErr t = true → 1 ≤ totalFiles t → mf < totalFiles t →
        countFiles mf t =
          (max 1 (mf + 1), some (WalkErr.tooMany (max 1 (mf + 1)) mf))) := by
  refine ⟨⟨?_, ?_⟩, ?_, ?_⟩
  · intro h
    rcases hr : countFiles mf t with ⟨m, o⟩
    rw [hr] at h
    simp only at h
    subst h
    obtain ⟨hno, hm, hd⟩ := walkEntry_none mf t 0 m hr
    refine ⟨hno, ?_⟩
    omega
  · rintro ⟨hno, hd⟩
    rcases hd with h0 | hle
    · rw [show countFiles mf t = walkEntry mf t 0 from rfl,
        walkEntry_zero mf t 0 hno h0]
    · rw [show countFiles mf t = walkEntry mf t 0 from rfl,
        walkEntry_complete mf t 0 hno (by omega)]
  · intro hno hle
    rw [show countFiles mf t = walkEntry mf t 0 from rfl,
      walkEntry_complete mf t 0 hno (by omega), zero_add]
  · intro hno h1 hover
    by_cases hsign : 0 ≤ mf
    · have h := walkEntry_exceed mf t 0 hno hsign (by omega)
      rw [show countFiles mf t = walkEntry mf t 0 from rfl, h]
      have : max 1 (mf + 1) = mf + 1 := by omega
      rw [this]
    · have h := walkEntry_over mf t 0 hno (by omega) h1
      rw [show countFiles mf t = walkEntry mf t 0 from rfl, h]
      have : max 1 (mf + 1) = 1 := by omega
      rw [this]
      norm_num

/-- Counterexample to C2 as stated: at threshold -1 a single-file tree
aborts with returned count 1, which exceeds the threshold but is not
"the threshold plus one" (that would be 0). -/
theorem claim_C2_counterexample :
    countFiles (-1) (Entry.file false) = (1, some (WalkErr.tooMany 1 (-1)))
    ∧ (1 : Int) ≠ (-1) + 1 := by
  exact ⟨rfl, by decide⟩

/-- Witness for the amended C2: four files against threshold 2 abort
with count 3 and the too-many error carrying 3 and 2; two files against
threshold 2 complete with count 2 and no error. -/
theorem claim_C2_countFiles_witness :
    countFiles 2 (Entry.dir false
        [Entry.file false, Entry.file false, Entry.file false, Entry.file false]) =
      (3, some (WalkErr.tooMany 3 2))
    ∧ countFiles 2 (Entry.dir false [Entry.file false, Entry.file false]) =
      (2, none) := by
  constructor
  · have h := (claim_C2_countFiles 2 (Entry.dir false
        [Entry.file false, Entry.file false, Entry.file false,
          Entry.file false])).2.2 rfl (by decide) (by decide)
    simpa using h
  · have h := (claim_C2_countFiles 2
        (Entry.dir false [Entry.file false, Entry.file false])).2.1 rfl (by decide)
    simpa using h

/-- Claim C1: on a target that is not under git control, with the config
loader resolving an identity, the walk measuring a count within
`max-files`, and the library operations succeeding, `run` returns no
error and the recorded effects are: repository initialized, all paths
staged, and exactly one commit whose author is the resolved identity. -/
theorem claim_C1_fresh_commit (env : Env) (ai : AuthorInfo) (n : Int)
    (hcfg : configureGitUserInfo env.expandTildeResult env.fs =
      CfgResult.returned ai false)
    (hopen : isUnderGitControl env.openResult = (false, none))
    (hinit : env.initOk = true)
    (hcount : countFiles env.maxFiles env.tree = (n, none))
    (hle : n ≤ env.maxFiles)
    (hadd : env.addOk = true) (hcommit : env.commitOk = true) :
    run env = RunResult.finished none ⟨true, true, [⟨"Boilerplate", ai⟩]⟩ := by
  simp only [run, hcfg, hopen, hinit, hcount, hadd, hcommit]
  rw [if_neg (by omega : ¬ n > env.maxFiles)]
  simp

/-- Witness for C1 on a concrete environment: a fresh two-file directory
with identity Alice, limit 100, ends in one commit authored by Alice. -/
theorem claim_C1_fresh_commit_witness :
    run ⟨some "/home/user/.gitconfig",
        fun _ => some ⟨[("user", [("name", "Alice"), ("email", "alice@example.org")])]⟩,
        some OpenErr.repositoryNotExists, true, true, true,
        Entry.dir false [Entry.file false, Entry.file false], 100⟩ =
      RunResult.finished none
        ⟨true, true, [⟨"Boilerplate", ⟨"Alice", "alice@example.org"⟩⟩]⟩ :=
  claim_C1_fresh_commit _ ⟨"Alice", "alice@example.org"⟩ 2 rfl rfl rfl rfl
    (by decide) rfl rfl

/-- Claim C3: on a target not under git control whose error-free tree
holds more files than `max-files`, `run` fails after initialization but
before staging or committing (effects: initialized, nothing staged, no
commit), and the error reports the count measured by the walk together
with the configured limit. -/
theorem claim_C3_limit_abort (env : Env) (ai : AuthorInfo)
    (hcfg : configureGitUserInfo env.expandTildeResult env.fs =
      CfgResult.returned ai false)
    (hopen : isUnderGitControl env.openResult = (false, none))
    (hinit : env.initOk = true)
    (hio : noIOErr env.tree = true)
    (hover : env.maxFiles < totalFiles env.tree) :
    ∃ e, run env = RunResult.finished (some e) ⟨true, false, []⟩
      ∧ reportedCountLimit e =
          some ((countFiles env.maxFiles env.tree).1, env.maxFiles) := by
  have htot := totalFiles_nonneg env.tree
  by_cases hsign : 0 ≤ env.maxFiles
  · have hc : countFiles env.maxFiles env.tree =
        (env.maxFiles + 1,
          some (WalkErr.tooMany (env.maxFiles + 1) env.maxFiles)) :=
      walkEntry_exceed env.maxFiles env.tree 0 hio hsign (by omega)
    refine ⟨RunError.countFailed
      (WalkErr.tooMany (env.maxFiles + 1) env.maxFiles), ?_, ?_⟩
    · simp only [run, hcfg, hopen, hinit, hc]
      simp
    · rw [hc]
      rfl
  · by_cases hz : totalFiles env.tree = 0
    · have hc : countFiles env.maxFiles env.tree = (0, none) :=
        walkEntry_zero env.maxFiles env.tree 0 hio hz
      refine ⟨RunError.tooManyFiles 0 env.maxFiles, ?_, ?_⟩
      · simp only [run, hcfg, hopen, hinit, hc]
        rw [if_pos (by omega : (0 : Int) > env.maxFiles)]
        simp
      · rw [hc]
        rfl
    · have hc : countFiles env.maxFiles env.tree =
          (1, some (WalkErr.tooMany 1 env.maxFiles)) := by
        have h := walkEntry_over env.maxFiles env.tree 0 hio (by omega)
          (by omega)
        simpa [countFiles] using h
      refine ⟨RunError.countFailed (WalkErr.tooMany 1 env.maxFiles), ?_, ?_⟩
      · simp only [run, hcfg, hopen, hinit, hc]
        simp
      · rw [hc]
        rfl

/-- Witness for C3: three files against limit 1 abort after init with
the error reporting measured count 2 and limit 1. -/
theorem claim_C3_limit_abort_witness :
    ∃ e, run ⟨some "/home/user/.gitconfig", fun _ => some ⟨[]⟩,
        some OpenErr.repositoryNotExists, true, true, true,
        Entry.dir false [Entry.file false, Entry.file false, Entry.file false],
        1⟩ = RunResult.finished (some e) ⟨true, false, []⟩
      ∧ reportedCountLimit e = some (2, 1) := by
  have h := claim_C3_limit_abort
    ⟨some "/home/user/.gitconfig", fun _ => some ⟨[]⟩,
      some OpenErr.repositoryNotExists, true, true, true,
      Entry.dir false [Entry.file false, Entry.file false, Entry.file false], 1⟩
    ⟨"Your Name", "your.email@example.com"⟩ rfl rfl rfl rfl (by decide)
  simpa using h

/-- Helper: with a readable config file the loader returns normally,
resolving each field from the file when non-empty, else the default. -/
theorem configureGitUserInfo_ok (p : String) (fs : String → Option IniFile)
    (cfg : IniFile) (h : fs p = some cfg) :
    configureGitUserInfo (some p) fs =
      CfgResult.returned
        ⟨if cfg.sectionKey "user" "name" ≠ "" then cfg.sectionKey "user" "name"
          else "Your Name",
         if cfg.sectionKey "user" "email" ≠ "" then cfg.sectionKey "user" "email"
          else "your.email@example.com"⟩ false := by
  simp only [configureGitUserInfo, h]
  by_cases hn : cfg.sectionKey "user" "name" = "" <;>
    by_cases he : cfg.sectionKey "user" "email" = "" <;>
      simp [hn, he]

/-- Helper: when the open succeeds (directory already tracked) and the
config loader returns normally, `run` is a clean no-op. -/
theorem run_tracked (env : Env) (ai : AuthorInfo)
    (hcfg : configureGitUserInfo env.expandTildeResult env.fs =
      CfgResult.returned ai false)
    (hopen : env.openResult = none) :
    run env = RunResult.finished none noEffects := by
  simp only [run, hcfg, hopen, isUnderGitControl]

/-- Helper: a `run` that returns no error either was a no-op on an
already-open repository, or initialized the repository. -/
theorem run_ok_cases (env : Env) (eff : Effects)
    (h : run env = RunResult.finished none eff) :
    (env.openResult = none ∧ eff = noEffects) ∨ eff.inited = true := by
  rcases hc : configureGitUserInfo env.expandTildeResult env.fs with _ | ⟨ai, isErr⟩
  · simp [run, hc] at h
  · cases isErr with
    | true => simp [run, hc] at h
    | false =>
      rcases ho : env.openResult with _ | oe
      · simp only [run, hc, ho, isUnderGitControl] at h
        left
        refine ⟨rfl, ?_⟩
        injection h with h1 h2
        exact h2.symm
      · cases oe with
        | other m => simp [run, hc, ho, isUnderGitControl] at h
        | repositoryNotExists =>
          simp only [run, hc, ho, isUnderGitControl] at h
          rcases hi : env.initOk with _ | _
          · simp [hi] at h
          · rcases hcount : countFiles env.maxFiles env.tree with ⟨n, o⟩
            rw [hi, hcount] at h
            simp only [Bool.true_eq_false, if_false] at h
            cases o with
            | some e => simp at h
            | none =>
              simp only at h
              by_cases hn : n > env.maxFiles
              · rw [if_pos hn] at h
                simp at h
              · rw [if_neg hn] at h
                rcases ha : env.addOk with _ | _
                · rw [ha] at h
                  simp at h
                · rcases hcm : env.commitOk with _ | _
                  · rw [ha, hcm] at h
                    simp at h
                  · rw [ha, hcm] at h
                    simp only [Bool.true_eq_false, if_false] at h
                    injection h with h1 h2
                    right
                    rw [← h2]
        | worktreeNotProvided =>
          simp only [run, hc, ho, isUnderGitControl] at h
          rcases hi : env.initOk with _ | _
          · simp [hi] at h
          · rcases hcount : countFiles env.maxFiles env.tree with ⟨n, o⟩
            rw [hi, hcount] at h
            simp only [Bool.true_eq_false, if_false] at h
            cases o with
            | some e => simp at h
            | none =>
              simp only at h
              by_cases hn : n > env.maxFiles
              · rw [if_pos hn] at h
                simp at h
              · rw [if_neg hn] at h
                rcases ha : env.addOk with _ | _
                · rw [ha] at h
                  simp at h
                · rcases hcm : env.commitOk with _ | _
                  · rw [ha, hcm] at h
                    simp at h
                  · rw [ha, hcm] at h
                    simp only [Bool.true_eq_false, if_false] at h
                    injection h with h1 h2
                    right
                    rw [← h2]

/-- Claim C6: with a readable config, a run against an already-tracked
directory performs no initialization, staging or commit and exits 0;
and after any error-free run, a second run against the same directory
performs no mutation and exits 0. -/
theorem claim_C6_idempotent_noop (env : Env) (p : String) (cfg : IniFile)
    (hexp : env.expandTildeResult = some p) (hfs : env.fs p = some cfg) :
    (env.openResult = none →
      run env = RunResult.finished none noEffects
      ∧ Execute false false false env = some (0, false))
    ∧ (∀ eff, run env = RunResult.finished none eff →
      run (applyRun env eff) = RunResult.finished none noEffects
      ∧ Execute false false false (applyRun env eff) = some (0, false)) := by
  have hcfg : configureGitUserInfo env.expandTildeResult env.fs =
      CfgResult.returned
        ⟨if cfg.sectionKey "user" "name" ≠ "" then cfg.sectionKey "user" "name"
          else "Your Name",
         if cfg.sectionKey "user" "email" ≠ "" then cfg.sectionKey "user" "email"
          else "your.email@example.com"⟩ false := by
    rw [hexp]
    exact configureGitUserInfo_ok p env.fs cfg hfs
  constructor
  · intro hopen
    have hr := run_tracked env _ hcfg hopen
    refine ⟨hr, ?_⟩
    simp [Execute, hr]
  · intro eff h
    rcases run_ok_cases env eff h with ⟨hopen, _⟩ | hinited
    · have happ : applyRun env eff = env := by
        rcases run_ok_cases env eff h with ⟨_, heff⟩ | hinited
        · rw [heff]
          simp [applyRun, noEffects]
        · simp [applyRun, hinited]
          have hr := run_tracked env _ hcfg hopen
          rw [h] at hr
          injection hr with h1 h2
          cases env with
          | mk a b c d e f g i => simp_all
      rw [happ]
      have hr := run_tracked env _ hcfg hopen
      refine ⟨hr, ?_⟩
      simp [Execute, hr]
    · have happ : applyRun env eff = { env with openResult := none } := by
        simp [applyRun, hinited]
      rw [happ]
      have hcfg2 : configureGitUserInfo
          ({ env with openResult := none } : Env).expandTildeResult
          ({ env with openResult := none } : Env).fs =
          CfgResult.returned
            ⟨if cfg.sectionKey "user" "name" ≠ "" then cfg.sectionKey "user" "name"
              else "Your Name",
             if cfg.sectionKey "user" "email" ≠ "" then cfg.sectionKey "user" "email"
              else "your.email@example.com"⟩ false := hcfg
      have hr := run_tracked { env with openResult := none } _ hcfg2 rfl
      refine ⟨hr, ?_⟩
      simp [Execute, hr]

/-- Witness for C6 at a concrete tracked directory: no effects, exit 0. -/
theorem claim_C6_idempotent_noop_witness :
    run ⟨some "/home/user/.gitconfig", fun _ => some ⟨[]⟩, none, true, true,
        true, Entry.file false, 100⟩ = RunResult.finished none noEffects
    ∧ Execute false false false ⟨some "/home/user/.gitconfig",
        fun _ => some ⟨[]⟩, none, true, true, true, Entry.file false, 100⟩ =
      some (0, false) :=
  (claim_C6_idempotent_noop ⟨some "/home/user/.gitconfig", fun _ => some ⟨[]⟩,
      none, true, true, true, Entry.file false, 100⟩
    "/home/user/.gitconfig" ⟨[]⟩ rfl rfl).1 rfl

/-- Claim C7: `Execute` exits 0 with nothing logged exactly when flag
parsing and both log-setup steps succeed and `run` returns no error
(success or already-tracked no-op); it exits 1 with the run error logged
exactly when setup succeeds and `run` returns an error; and it exits 1
with nothing logged exactly when flag parsing or log setup fails. -/
theorem claim_C7_Execute (f l s : Bool) (env : Env) :
    (Execute f l s env = some (0, false) ↔
      (f = false ∧ l = false ∧ s = false
        ∧ ∃ eff, run env = RunResult.finished none eff))
    ∧ (Execute f l s env = some (1, true) ↔
      (f = false ∧ l = false ∧ s = false
        ∧ ∃ e eff, run env = RunResult.finished (some e) eff))
    ∧ (Execute f l s env = some (1, false) ↔
      (f = true ∨ l = true ∨ s = true)) := by
  cases f with
  | true => simp [Execute]
  | false =>
    cases l with
    | true => simp [Execute]
    | false =>
      cases s with
      | true => simp [Execute]
      | false =>
        rcases hr : run env with _ | ⟨o, eff⟩
        · simp [Execute, hr]
        · cases o with
          | none => simp [Execute, hr]
          | some e => simp [Execute, hr]

/-- Witness for C7: a flag-parse failure exits 1 with nothing logged. -/
theorem claim_C7_Execute_witness :
    Execute true false false ⟨some "/home/user/.gitconfig",
        fun _ => some ⟨[]⟩, none, true, true, true, Entry.file false, 100⟩ =
      some (1, false) :=
  (claim_C7_Execute true false false ⟨some "/home/user/.gitconfig",
      fun _ => some ⟨[]⟩, none, true, true, true, Entry.file false,
      100⟩).2.2.mpr (Or.inl rfl)

/-- Witness for C4: a successful open reports "under git control". -/
theorem claim_C4_isUnderGitControl_witness :
    (isUnderGitControl none).1 = true :=
  (claim_C4_isUnderGitControl none).1.mpr rfl

/-- Witness for C8: a failed tilde expansion panics. -/
theorem claim_C8_expand_panic_witness :
    configureGitUserInfo none (fun _ => none) = CfgResult.panicked :=
  (claim_C8_expand_panic none (fun _ => none)).mpr rfl

end Greenleeks
